import Mathlib

/-!
Shallow embedding of the horizon repository's canary-rollout Ability
(`rollout` in the workload package: `IsHealthy`, `GetSteps`, `Action`) and of
the pipeline state machine `InternalDeployV2` (core/common/gitops.go),
together with proofs checking the natural-language specification against it.

Machine integers (`int`, `int32`) are modelled as `Int` (no overflow occurs in
the modelled code paths), Go slices as `List`, Go string-keyed maps as
association lists with Go's zero-value lookup semantics.  Fallible Go calls
return `Except`/`Option`; a Go runtime panic (nil-pointer dereference) is a
distinguished outcome constructor.
-/

namespace Horizon

/-- Error taxonomy used by the embedded code paths: `herrors.NewErrNotFound`,
`herrors.ErrParamInvalid` (InvalidArgument), `herrors.NewErrGetFailed`, and
generic upstream/database failures. -/
inductive GoErr
  | notFound (resource : String) (msg : String)
  | paramInvalid (msg : String)
  | getFailed (msg : String)
  | upstream (msg : String)
deriving DecidableEq, Repr

/-- One declared canary step (`rolloutsv1alpha1.CanaryStep`): the embedded
code only reads `SetWeight` and `SetReplica` (both nilable), so a pure
pause/analysis step is one with both fields `none`. -/
structure CanaryStep where
  setWeight : Option Int
  setReplica : Option Int
deriving DecidableEq, Repr

/-- The declared pod template of a rollout (`instance.Spec.Template`):
labels, template pod annotations, and the pod spec, the latter kept abstract
(type `σ`) because the code only ever hashes it. -/
structure PodTemplate (σ : Type) where
  labels : List (String × String)
  tmplAnnotations : List (String × String)
  spec : σ
deriving DecidableEq, Repr

/-- `instance.Spec`: nilable declared replica count, paused flag, pod
template, and the canary strategy (`Strategy.Canary` is a nilable pointer
whose only read field is `Steps`). -/
structure RolloutSpec (σ : Type) where
  replicas : Option Int
  paused : Bool
  template : PodTemplate σ
  canary : Option (List CanaryStep)
deriving DecidableEq, Repr

/-- `instance.Status`: nilable current step index and the stored step-list
hash. -/
structure RolloutStatus where
  currentStepIndex : Option Int
  currentStepHash : String
deriving DecidableEq, Repr

/-- A fetched rollout object.  `unAutoPromote` models the raw
`status.autoPromote` field of the unstructured view read by
`unstructured.NestedBool`: `none` = field absent (reads `false`),
`some none` = present but not a boolean (read error),
`some (some b)` = present with value `b`. -/
structure Rollout (σ : Type) where
  spec : RolloutSpec σ
  status : RolloutStatus
  unAutoPromote : Option (Option Bool)
deriving DecidableEq, Repr

/-- A live pod as read by `IsHealthy`: phase, pod spec (abstract, hashed
only), and its annotations map. -/
structure Pod (σ : Type) where
  phase : String
  spec : σ
  podAnnotations : List (String × String)
deriving DecidableEq, Repr

/-- The progress snapshot `workload.Step`. -/
structure Step where
  Index : Int
  Total : Int
  Replicas : List Int
  ManualPaused : Bool
  AutoPromote : Bool
  Extra : Option String
deriving DecidableEq, Repr

/-- Outcome of `GetSteps` on a fetched object: a Go runtime panic, an error
return, or a successful `Step`. -/
inductive StepsOutcome
  | panicked
  | failed (e : GoErr)
  | ok (s : Step)
deriving DecidableEq, Repr

/-- Outcome of `IsHealthy`: a Go runtime panic or the returned
`(bool, error)` pair. -/
inductive HealthOutcome
  | panicked
  | result (healthy : Bool) (err : Option GoErr)
deriving DecidableEq, Repr

/-- Result of fetching the rollout through `getRolloutByNode`: the wrapped
get/convert error, a nil instance without error (the code's absence case), or
the converted instance. -/
inductive FetchOutcome (σ : Type)
  | failed (e : GoErr)
  | nilInstance
  | found (inst : Rollout σ)
deriving DecidableEq, Repr

/-- Go map indexing `m[k]` on a `map[string]string`: the zero value `""` when
the key is absent. -/
def lookupGo (m : List (String × String)) (k : String) : String :=
  (m.lookup k).getD ""

/-- The per-pod check of `IsHealthy`'s loop: Running phase, pod-spec hash
equal to the template hash, and every template annotation key equal under Go
map lookup (`pod.Annotations[k] != v` skips the pod). -/
def podMatches {σ : Type} (hashFn : σ → Nat) (tmplHash : Nat)
    (tmplAnn : List (String × String)) (p : Pod σ) : Bool :=
  p.phase == "Running" && hashFn p.spec == tmplHash &&
    tmplAnn.all fun kv => lookupGo p.podAnnotations kv.1 == kv.2

/-- `IsHealthy` after a successful fetch (part_002 lines 142-181).  Desired
replicas default to `0` when `Spec.Replicas` is nil.  When the count matches
and `Status.CurrentStepIndex` is set, the code compares it with
`len(instance.Spec.Strategy.Canary.Steps)`, dereferencing the nilable
`Canary` pointer (panic when nil).  `hashFn` stands for the package's
`computePodSpecHash` (modelled from the spec: a canonical deterministic hash
of a pod spec; the code only compares its values for equality). -/
def isHealthyFetched {σ : Type} (hashFn : σ → Nat) (inst : Rollout σ)
    (pods : List (Pod σ)) : HealthOutcome :=
  let required : Int := match inst.spec.replicas with
    | some r => r
    | none => 0
  let tmplHash := hashFn inst.spec.template.spec
  let count :=
    pods.countP fun p => podMatches hashFn tmplHash inst.spec.template.tmplAnnotations p
  if (count : Int) ≠ required then .result false none
  else
    match inst.status.currentStepIndex with
    | some idx =>
      match inst.spec.canary with
      | some steps => .result (idx == (steps.length : Int)) none
      | none => .panicked
    | none => .result true none

/-- Full `IsHealthy`: an error from `getRolloutByNode` or from the pod list
returns `(true, err)`; a nil instance returns `(true, nil)`; otherwise the
fetched-instance computation runs. -/
def isHealthy {σ : Type} (hashFn : σ → Nat) (fetch : FetchOutcome σ)
    (podsResult : Except GoErr (List (Pod σ))) : HealthOutcome :=
  match fetch with
  | .failed e => .result true (some e)
  | .nilInstance => .result true none
  | .found inst =>
    match podsResult with
    | .error e => .result true (some e)
    | .ok pods => isHealthyFetched hashFn inst pods

/-- Number of recursive halvings needed to exhaust `n`, driven by explicit
structural fuel so that the kernel can evaluate it.  128 bits of fuel cover
every intermediate value arising from int32-ranged inputs below. -/
def bitLenAux : Nat → Nat → Nat
  | 0, _ => 0
  | fuel + 1, n => if n = 0 then 0 else bitLenAux fuel (n / 2) + 1

/-- Bit length of `n` (0 for 0), i.e. `⌊log₂ n⌋ + 1` for `n ≥ 1`. -/
def bitLen (n : Nat) : Nat := bitLenAux 128 n

/-- Round `n / d` (with `d > 0`) to the nearest integer, ties to even —
IEEE-754's default rounding applied to an explicit quotient. -/
def rne (n d : Nat) : Nat :=
  let k := n / d
  let r := n % d
  if 2 * r < d then k
  else if d < 2 * r then k + 1
  else if k % 2 = 0 then k else k + 1

/-- `⌊log₂ (a / b)⌋` for `a, b ≥ 1`: the bit-length difference is off by at
most one, fixed by a single comparison of `a / b` against `2 ^ c`. -/
def floorLog2Rat (a b : Nat) : Int :=
  let c : Int := (bitLen a : Int) - (bitLen b : Int)
  if 0 ≤ c then (if b * 2 ^ c.toNat ≤ a then c else c - 1)
  else (if b ≤ a * 2 ^ (-c).toNat then c else c - 1)

/-- The IEEE-754 binary64 value nearest to the positive rational `a / b`
(`a, b ≥ 1`, normal range), returned as significand `m` and binade exponent
`e` with value `m · 2 ^ (e - 52)`: scale `a / b` into `[2^52, 2^53)` and
round to nearest with ties to even (a carry to `2^53` still denotes the
correct, coarser-spaced value of the next binade). -/
def roundB64Pos (a b : Nat) : Nat × Int :=
  let e := floorLog2Rat a b
  let s : Int := 52 - e
  let m := if 0 ≤ s then rne (a * 2 ^ s.toNat) b else rne a (b * 2 ^ (-s).toNat)
  (m, e)

/-- The Go expression `int(math.Ceil(float64(w)/100*float64(rt)))` under
IEEE-754 binary64 semantics for int32-ranged `w`, `rt`: `float64(w)` and
`float64(rt)` are exact, the division by 100 and the multiplication are each
correctly rounded to the nearest binary64 (ties to even; all intermediate
magnitudes stay in the normal range, no overflow), `math.Ceil` of a binary64
is exact, and the final `int` conversion of the integral result is exact.
This reproduces the program's float behaviour, e.g. the value 8 at
`w = 7, rt = 100` where the exact ceiling of `w·rt/100` is 7. -/
def goCeilWeight (w rt : Int) : Int :=
  if w = 0 ∨ rt = 0 then 0
  else
    let p1 := roundB64Pos w.natAbs 100
    let m1 := p1.1
    let e1 := p1.2
    let a2 := if 0 ≤ e1 - 52 then m1 * 2 ^ (e1 - 52).toNat * rt.natAbs else m1 * rt.natAbs
    let b2 := if 0 ≤ e1 - 52 then 1 else 2 ^ (52 - e1).toNat
    let p2 := roundB64Pos a2 b2
    let m2 := p2.1
    let e2 := p2.2
    if 0 < w ↔ 0 < rt then
      (if 0 ≤ e2 - 52 then ((m2 * 2 ^ (e2 - 52).toNat : Nat) : Int)
       else (((m2 + 2 ^ (52 - e2).toNat - 1) / 2 ^ (52 - e2).toNat : Nat) : Int))
    else
      (if 0 ≤ e2 - 52 then -((m2 * 2 ^ (e2 - 52).toNat : Nat) : Int)
       else -((m2 / 2 ^ (52 - e2).toNat : Nat) : Int))

/-- The cumulative target contributed by one declared step (`GetSteps` loop,
part_002 lines 228-234): a weight step contributes
`int(math.Ceil(float64(weight)/100*float64(replicasTotal)))`, embedded as
`goCeilWeight` — the exact binary64 evaluation of that expression; a replica
step its literal count; any other step nothing. -/
def stepTarget (replicasTotal : Int) (st : CanaryStep) : Option Int :=
  match st.setWeight with
  | some w => some (goCeilWeight w replicasTotal)
  | none =>
    match st.setReplica with
    | some c => some c
    | none => none

/-- Tail of the increment loop: each element minus its predecessor. -/
def incrementsAux (prev : Int) : List Int → List Int
  | [] => []
  | x :: xs => (x - prev) :: incrementsAux x xs

/-- The increment loop of `GetSteps` (part_002 lines 236-243):
`increment[0] = r[0]`, `increment[i] = r[i] - r[i-1]`. -/
def increments : List Int → List Int
  | [] => []
  | x :: xs => x :: incrementsAux x xs

/-- A declared step that advances the externally visible index:
`SetWeight != nil || SetReplica != nil`. -/
def effectiveStep (st : CanaryStep) : Bool :=
  st.setWeight.isSome || st.setReplica.isSome

/-- The index loop of `GetSteps` (part_002 lines 251-256): count effective
steps among the first `bound` declared steps. -/
def stepIndexCount (steps : List CanaryStep) (bound : Nat) : Nat :=
  (steps.take bound).countP fun st => effectiveStep st

/-- The `Extra` payload `json.Marshal(map{"currentIndex": idx})`. -/
def serializeIndex (idx : Int) : String :=
  "\x7b\"currentIndex\":" ++ toString idx ++ "\x7d"

/-- `GetSteps` after a successful fetch (part_002 lines 207-281).  `stepHash`
stands for the package's `computeStepHash` (modelled from the spec: a hash of
the declared step list, compared against `Status.CurrentStepHash`).  The
final `*instance.Status.CurrentStepIndex` dereference when building `Extra`
panics if the index is nil. -/
def getStepsFetched {σ : Type} (stepHash : List CanaryStep → String)
    (inst : Rollout σ) : StepsOutcome :=
  let replicasTotal : Int := match inst.spec.replicas with
    | some r => r
    | none => 1
  match inst.spec.canary with
  | none => .ok ⟨0, 1, [replicasTotal], false, false, none⟩
  | some [] => .ok ⟨0, 1, [replicasTotal], false, false, none⟩
  | some (st0 :: rest) =>
    let steps := st0 :: rest
    let replicasList := steps.filterMap (stepTarget replicasTotal)
    let incrementReplicasList := increments replicasList
    let stepIndex : Int :=
      if inst.status.currentStepHash = stepHash steps then
        match inst.status.currentStepIndex with
        | some idx =>
          (stepIndexCount steps (Int.toNat (min idx (steps.length : Int))) : Int)
        | none => 0
      else 0
    match inst.unAutoPromote with
    | some none => .failed (.getFailed "status.autoPromote is not a bool")
    | ap =>
      let autoPromote := match ap with
        | some (some b) => b
        | _ => false
      match inst.status.currentStepIndex with
      | none => .panicked
      | some idx =>
        .ok ⟨stepIndex, (incrementReplicasList.length : Int), incrementReplicasList,
          inst.spec.paused, autoPromote, some (serializeIndex idx)⟩

/-- Full `GetSteps`: a fetch error is returned, a nil instance dereferences
`instance.Spec.Replicas` and panics, otherwise the fetched-instance
computation runs. -/
def getSteps {σ : Type} (stepHash : List CanaryStep → String)
    (fetch : FetchOutcome σ) : StepsOutcome :=
  match fetch with
  | .failed e => .failed e
  | .nilInstance => .panicked
  | .found inst => getStepsFetched stepHash inst

/-! ### The `Action` mutation over the unstructured object -/

/-- A JSON-like value tree, the embedding of the `unstructured` object's
`map[string]interface\x7b\x7d` content. -/
inductive JVal
  | bool (b : Bool)
  | num (n : Int)
  | str (s : String)
  | obj (m : List (String × JVal))
  | arr (l : List JVal)
  | null

/-- Go map assignment `m[k] = v` on the embedded object map: replace the
binding in place when present, append otherwise. -/
def setKey (m : List (String × JVal)) (k : String) (v : JVal) :
    List (String × JVal) :=
  if m.any fun p => p.1 == k then
    m.map fun p => if p.1 == k then (k, v) else p
  else m ++ [(k, v)]

/-- Go map deletion `delete(m, k)`. -/
def delKey (m : List (String × JVal)) (k : String) : List (String × JVal) :=
  m.filter fun p => p.1 ≠ k

/-- Result of `Action`: a Go panic, or the post-state of the caller's object
together with the returned object pointer (`none` models a `nil` return) and
the returned error. -/
inductive ActionOutcome
  | panicked
  | result (post : List (String × JVal)) (ret : Option (List (String × JVal)))
      (err : Option GoErr)

/-- `Action` (part_002 lines 283-321).  `convert` stands for
`runtime.DefaultUnstructuredConverter.FromUnstructured` into a typed rollout
(external to the repository): `none` is a conversion failure, otherwise it
yields the converted instance's `Spec.Strategy.Canary` (a nilable pointer
whose `Steps` is read by `promote-full`, panicking when nil).  The untyped
`spec`/`status` submaps are mutated through Go map aliasing, embedded here by
rebuilding the object with the mutated submap in place. -/
def Action (convert : List (String × JVal) → Option (Option (List CanaryStep)))
    (actionName : String) (un : List (String × JVal)) : ActionOutcome :=
  match convert un with
  | none => .result un (some un) (some (.paramInvalid "convert to rollout failed"))
  | some canary =>
    match un.lookup "spec" with
    | some (JVal.obj spec) =>
      match un.lookup "status" with
      | some (JVal.obj status) =>
        if actionName = "resume" then
          let status1 := delKey status "pauseConditions"
          let spec1 := setKey spec "paused" (.bool false)
          let un1 := setKey (setKey un "status" (.obj status1)) "spec" (.obj spec1)
          .result un1 (some un1) none
        else if actionName = "pause" then
          let spec1 := setKey spec "paused" (.bool true)
          let un1 := setKey un "spec" (.obj spec1)
          .result un1 (some un1) none
        else if actionName = "promote-full" then
          match canary with
          | none => .panicked
          | some steps =>
            let spec1 := setKey spec "paused" (.bool false)
            let status1 := setKey (delKey status "pauseConditions")
              "currentStepIndex" (.num (steps.length : Int))
            let un1 := setKey (setKey un "spec" (.obj spec1)) "status" (.obj status1)
            .result un1 (some un1) none
        else if actionName = "promote" then
          let spec1 := setKey spec "paused" (.bool false)
          let status1 := delKey status "pauseConditions"
          let un1 := setKey (setKey un "spec" (.obj spec1)) "status" (.obj status1)
          .result un1 (some un1) none
        else if actionName = "auto-promote" then
          let status1 := delKey (setKey status "autoPromote" (.bool true)) "pauseConditions"
          let spec1 := setKey spec "paused" (.bool false)
          let un1 := setKey (setKey un "status" (.obj status1)) "spec" (.obj spec1)
          .result un1 (some un1) none
        else if actionName = "cancel-auto-promote" then
          let status1 := delKey status "autoPromote"
          let un1 := setKey un "status" (.obj status1)
          .result un1 (some un1) none
        else
          .result un none (some (.paramInvalid ("unsupported action: " ++ actionName)))
      | _ => .result un none (some (.paramInvalid "status not found"))
    | _ => .result un none (some (.paramInvalid "spec not found"))

/-! ### The pipeline state machine `InternalDeployV2` (core/common/gitops.go) -/

/-- `prmodels.PipelineStatus` values named by the spec. -/
inductive PipelineStatus
  | created
  | committed
  | merged
  | ok
  | failed
  | cancelled
  | unknown
deriving DecidableEq, Repr

/-- Cluster lifecycle statuses used by the deploy path
(`common.ClusterStatusFreed` / `common.ClusterStatusEmpty`) plus the other
states the spec names. -/
inductive ClusterStatus
  | empty
  | freed
  | freeing
  | other (s : String)
deriving DecidableEq, Repr

/-- The fields of a PipelineRun read by `InternalDeployV2`. -/
structure PipelineRun where
  id : Nat
  clusterID : Nat
deriving DecidableEq, Repr

/-- The fields of a Cluster read by `InternalDeployV2`. -/
structure Cluster where
  id : Nat
  applicationID : Nat
  name : String
  template : String
  templateRelease : String
  regionName : String
  environmentName : String
  status : ClusterStatus
deriving DecidableEq, Repr

/-- The application entity (only its name is read). -/
structure Application where
  name : String
deriving DecidableEq, Repr

/-- The template release bound to the cluster (only its chart name is read). -/
structure TemplateRelease where
  chartName : String
deriving DecidableEq, Repr

/-- The region's infrastructure entity, passed through opaquely. -/
structure RegionEntity where
  id : Nat
deriving DecidableEq, Repr

/-- The Git-held environment values (only the namespace is read). -/
structure EnvValue where
  envNamespace : String
deriving DecidableEq, Repr

/-- `GetRepoInfo`'s result (no error return in the source). -/
structure RepoInfo where
  gitRepoURL : String
  valueFiles : List String
deriving DecidableEq, Repr

/-- The success payload of `InternalDeployV2`. -/
structure InternalDeployResponse where
  pipelinerunID : Nat
  commit : String
deriving DecidableEq, Repr

/-- The durable state written by `InternalDeployV2`: the PipelineRun's
status and config commit, and the cluster's lifecycle status. -/
structure DeployDB where
  prStatus : PipelineStatus
  prConfigCommit : Option String
  clusterStatus : ClusterStatus
deriving DecidableEq, Repr

/-- Outcomes of every external collaborator call made by one invocation, in
the order the source makes them; each field is the (arbitrary) result the
collaborator would return.  Writes carry only their failure, reads their
value or failure. -/
structure DeployEnv where
  getPipelinerun : Except GoErr (Option PipelineRun)
  getCluster : Except GoErr Cluster
  getApplication : Except GoErr Application
  getTemplateRelease : Except GoErr TemplateRelease
  updatePipelineOutput : Except GoErr String
  updateConfigCommit : Option GoErr
  updateStatusCommitted : Option GoErr
  mergeBranch : Except GoErr String
  updateStatusMerged : Option GoErr
  getRegionEntity : Except GoErr RegionEntity
  getEnvValue : Except GoErr EnvValue
  getRepoInfo : RepoInfo
  createCluster : Option GoErr
  updateCluster : Except GoErr Unit
  deployCluster : Option GoErr
  updateStatusOK : Option GoErr

/-- One attempted collaborator call, recorded in order.  Database writes
carry a `persisted` flag: `true` when the write succeeded, `false` when the
attempt failed (and the machine aborted). -/
inductive DeployEvent
  | dbGetPipelinerun
  | dbGetCluster
  | dbGetApplication
  | dbGetTemplateRelease
  | gitUpdatePipelineOutput
  | dbUpdateConfigCommit (prID : Nat) (commit : String) (persisted : Bool)
  | dbUpdateStatus (prID : Nat) (s : PipelineStatus) (persisted : Bool)
  | gitMergeBranch
  | dbGetRegionEntity
  | gitGetEnvValue
  | gitGetRepoInfo
  | cdCreateCluster
  | dbUpdateCluster (status : ClusterStatus) (persisted : Bool)
  | cdDeployCluster
deriving DecidableEq, Repr

/-- `InternalDeployV2` (gitops.go lines 145-257), as a function of the
collaborator outcomes and the initial durable state, returning the Go result,
the final durable state, and the ordered trace of attempted calls. -/
def internalDeployV2 (env : DeployEnv) (clusterID pipelinerunID : Nat)
    (db : DeployDB) :
    Except GoErr InternalDeployResponse × DeployDB × List DeployEvent :=
  match env.getPipelinerun with
  | .error e => (.error e, db, [.dbGetPipelinerun])
  | .ok none =>
    (.error (.notFound "pipelinerun"
        ("cannot find the pipelinerun with id: " ++ toString pipelinerunID)),
      db, [.dbGetPipelinerun])
  | .ok (some pr) =>
    if pr.clusterID ≠ clusterID then
      (.error (.notFound "pipelinerun"
          ("cannot find the pipelinerun with id: " ++ toString pipelinerunID)),
        db, [.dbGetPipelinerun])
    else
      match env.getCluster with
      | .error e => (.error e, db, [.dbGetPipelinerun, .dbGetCluster])
      | .ok cluster =>
        match env.getApplication with
        | .error e => (.error e, db, [.dbGetPipelinerun, .dbGetCluster, .dbGetApplication])
        | .ok _application =>
          match env.getTemplateRelease with
          | .error e =>
            (.error e, db,
              [.dbGetPipelinerun, .dbGetCluster, .dbGetApplication, .dbGetTemplateRelease])
          | .ok _tr =>
            match env.updatePipelineOutput with
            | .error e =>
              (.error e, db,
                [.dbGetPipelinerun, .dbGetCluster, .dbGetApplication,
                  .dbGetTemplateRelease, .gitUpdatePipelineOutput])
            | .ok commit =>
              let tr0 : List DeployEvent :=
                [.dbGetPipelinerun, .dbGetCluster, .dbGetApplication,
                  .dbGetTemplateRelease, .gitUpdatePipelineOutput]
              match env.updateConfigCommit with
              | some e =>
                (.error e, db, tr0 ++ [.dbUpdateConfigCommit pr.id commit false])
              | none =>
                let db1 := { db with prConfigCommit := some commit }
                let tr1 := tr0 ++ [.dbUpdateConfigCommit pr.id commit true]
                match env.updateStatusCommitted with
                | some e =>
                  (.error e, db1, tr1 ++ [.dbUpdateStatus pr.id .committed false])
                | none =>
                  let db2 := { db1 with prStatus := .committed }
                  let tr2 := tr1 ++ [.dbUpdateStatus pr.id .committed true]
                  match env.mergeBranch with
                  | .error e => (.error e, db2, tr2 ++ [.gitMergeBranch])
                  | .ok _masterRevision =>
                    let tr3 := tr2 ++ [.gitMergeBranch]
                    match env.updateStatusMerged with
                    | some e =>
                      (.error e, db2, tr3 ++ [.dbUpdateStatus pr.id .merged false])
                    | none =>
                      let db3 := { db2 with prStatus := .merged }
                      let tr4 := tr3 ++ [.dbUpdateStatus pr.id .merged true]
                      match env.getRegionEntity with
                      | .error e => (.error e, db3, tr4 ++ [.dbGetRegionEntity])
                      | .ok _regionEntity =>
                        let tr5 := tr4 ++ [.dbGetRegionEntity]
                        match env.getEnvValue with
                        | .error e => (.error e, db3, tr5 ++ [.gitGetEnvValue])
                        | .ok _envValue =>
                          let tr6 := tr5 ++ [.gitGetEnvValue, .gitGetRepoInfo]
                          match env.createCluster with
                          | some e => (.error e, db3, tr6 ++ [.cdCreateCluster])
                          | none =>
                            let tr7 := tr6 ++ [.cdCreateCluster]
                            match
                              (if cluster.status = ClusterStatus.freed then
                                match env.updateCluster with
                                | .error e =>
                                  .error (e, db3, tr7 ++ [.dbUpdateCluster .empty false])
                                | .ok _ =>
                                  .ok ({ db3 with clusterStatus := .empty },
                                    tr7 ++ [.dbUpdateCluster .empty true])
                              else (.ok (db3, tr7) :
                                Except (GoErr × DeployDB × List DeployEvent)
                                  (DeployDB × List DeployEvent))) with
                            | .error (e, dbe, tre) => (.error e, dbe, tre)
                            | .ok (db4, tr8) =>
                              match env.deployCluster with
                              | some e => (.error e, db4, tr8 ++ [.cdDeployCluster])
                              | none =>
                                let tr9 := tr8 ++ [.cdDeployCluster]
                                match env.updateStatusOK with
                                | some e =>
                                  (.error e, db4, tr9 ++ [.dbUpdateStatus pr.id .ok false])
                                | none =>
                                  (.ok ⟨pr.id, commit⟩,
                                    { db4 with prStatus := .ok },
                                    tr9 ++ [.dbUpdateStatus pr.id .ok true])

/-- The Go result of one invocation. -/
def deployResult (env : DeployEnv) (clusterID pipelinerunID : Nat)
    (db : DeployDB) : Except GoErr InternalDeployResponse :=
  (internalDeployV2 env clusterID pipelinerunID db).1

/-- The durable state after one invocation. -/
def deployDBAfter (env : DeployEnv) (clusterID pipelinerunID : Nat)
    (db : DeployDB) : DeployDB :=
  (internalDeployV2 env clusterID pipelinerunID db).2.1

/-- The ordered trace of attempted collaborator calls of one invocation. -/
def deployTrace (env : DeployEnv) (clusterID pipelinerunID : Nat)
    (db : DeployDB) : List DeployEvent :=
  (internalDeployV2 env clusterID pipelinerunID db).2.2

/-- The PipelineRun statuses whose write was attempted, in trace order. -/
def attemptedStatuses (tr : List DeployEvent) : List PipelineStatus :=
  tr.filterMap fun e =>
    match e with
    | .dbUpdateStatus _ s _ => some s
    | _ => none

/-- The PipelineRun statuses actually persisted, in trace order. -/
def persistedStatuses (tr : List DeployEvent) : List PipelineStatus :=
  tr.filterMap fun e =>
    match e with
    | .dbUpdateStatus _ s true => some s
    | _ => none

/-! ### Definitions following the specification's words (for comparison
against the embedded source) -/

/-- The increment sequence as the spec words it:
`increment[0] = cumulative[0]`; `increment[i] = cumulative[i] - cumulative[i-1]`
for `i > 0`. -/
def claimIncrements (c : List Int) : List Int :=
  (List.range c.length).map fun i =>
    if i = 0 then c.getD 0 0 else c.getD i 0 - c.getD (i - 1) 0

/-- The pod-matching rule as the spec words it: Running phase, equal pod-spec
hash, and every annotation key of the template present on the pod with an
identical value (a missing key disqualifies the pod). -/
def claimPodMatches {σ : Type} (hashFn : σ → Nat) (tmplHash : Nat)
    (tmplAnn : List (String × String)) (p : Pod σ) : Bool :=
  p.phase == "Running" && hashFn p.spec == tmplHash &&
    tmplAnn.all fun kv => p.podAnnotations.lookup kv.1 == some kv.2

/-- `IsHealthy` on a fetched object as the claim words it: desired replicas
default to 1 when unset; healthy requires the matching count to equal the
desired count, and, when a current step index is exposed, that it equal the
number of declared canary steps. -/
def claimIsHealthyFetched {σ : Type} (hashFn : σ → Nat) (inst : Rollout σ)
    (pods : List (Pod σ)) : Bool :=
  let required : Int := (inst.spec.replicas).getD 1
  let tmplHash := hashFn inst.spec.template.spec
  let count :=
    pods.countP fun p => claimPodMatches hashFn tmplHash inst.spec.template.tmplAnnotations p
  if (count : Int) ≠ required then false
  else
    match inst.status.currentStepIndex with
    | some idx => idx == (((inst.spec.canary).getD []).length : Int)
    | none => true

/-! ### Concrete instances used by witnesses and counterexamples -/

/-- A step-list hash parameter that matches the stored hash `"h"`. -/
def hashH : List CanaryStep → String := fun _ => "h"

/-- A step-list hash parameter matching nothing stored below. -/
def hashX : List CanaryStep → String := fun _ => "x"

/-- A trivial pod-spec hash on the unit pod-spec type. -/
def unitHash : Unit → Nat := fun _ => 0

/-- Rollout with weight steps 25/50/100 and 4 declared replicas, step index
fully promoted, matching stored step hash. -/
def instEx : Rollout Unit :=
  { spec := { replicas := some 4, paused := false,
              template := { labels := [], tmplAnnotations := [], spec := () },
              canary := some [⟨some 25, none⟩, ⟨some 50, none⟩, ⟨some 100, none⟩] },
    status := { currentStepIndex := some 3, currentStepHash := "h" },
    unAutoPromote := none }

/-- Rollout whose only declared canary step is a pure pause step (neither a
weight nor a replica count). -/
def instPause : Rollout Unit :=
  { spec := { replicas := none, paused := false,
              template := { labels := [], tmplAnnotations := [], spec := () },
              canary := some [⟨none, none⟩] },
    status := { currentStepIndex := some 0, currentStepHash := "h" },
    unAutoPromote := none }

/-- Rollout with 100 declared replicas and a single 7% weight step: the
program's float arithmetic yields a cumulative target of 8, one above the
exact ceiling 7. -/
def instW7 : Rollout Unit :=
  { spec := { replicas := some 100, paused := false,
              template := { labels := [], tmplAnnotations := [], spec := () },
              canary := some [⟨some 7, none⟩] },
    status := { currentStepIndex := some 1, currentStepHash := "h" },
    unAutoPromote := none }

/-- Rollout with a declared weight step whose status current-step-index is
unset (nil). -/
def instNilIndex : Rollout Unit :=
  { spec := { replicas := some 2, paused := false,
              template := { labels := [], tmplAnnotations := [], spec := () },
              canary := some [⟨some 50, none⟩] },
    status := { currentStepIndex := none, currentStepHash := "h" },
    unAutoPromote := none }

/-- Rollout with no canary steps declared and `spec.paused = true`. -/
def instPausedNoSteps : Rollout Unit :=
  { spec := { replicas := some 2, paused := true,
              template := { labels := [], tmplAnnotations := [], spec := () },
              canary := none },
    status := { currentStepIndex := none, currentStepHash := "" },
    unAutoPromote := none }

/-- Rollout with an unset declared replica count and no pods running. -/
def instNoReplicas : Rollout Unit :=
  { spec := { replicas := none, paused := false,
              template := { labels := [], tmplAnnotations := [], spec := () },
              canary := none },
    status := { currentStepIndex := none, currentStepHash := "" },
    unAutoPromote := none }

/-- A well-formed unstructured rollout object for `Action`. -/
def unEx : List (String × JVal) :=
  [("apiVersion", .str "argoproj.io/v1alpha1"),
   ("kind", .str "Rollout"),
   ("spec", .obj [("paused", .bool false), ("replicas", .num 2)]),
   ("status", .obj [("pauseConditions", .arr []), ("phase", .str "Paused")])]

/-- A conversion oracle that succeeds with an empty canary step list. -/
def convertEx : List (String × JVal) → Option (Option (List CanaryStep)) :=
  fun _ => some (some [])

/-- A collaborator environment in which every call succeeds and the fetched
cluster is in status `Freed`. -/
def envOK : DeployEnv :=
  { getPipelinerun := .ok (some ⟨7, 3⟩),
    getCluster := .ok ⟨3, 11, "cl", "tmpl", "v1", "region1", "test", .freed⟩,
    getApplication := .ok ⟨"app"⟩,
    getTemplateRelease := .ok ⟨"chart"⟩,
    updatePipelineOutput := .ok "commit1",
    updateConfigCommit := none,
    updateStatusCommitted := none,
    mergeBranch := .ok "rev1",
    updateStatusMerged := none,
    getRegionEntity := .ok ⟨1⟩,
    getEnvValue := .ok ⟨"ns"⟩,
    getRepoInfo := ⟨"http://git/repo", ["application.yaml"]⟩,
    createCluster := none,
    updateCluster := .ok (),
    deployCluster := none,
    updateStatusOK := none }

/-- The same environment but with no PipelineRun stored under the queried
id. -/
def envNoPr : DeployEnv :=
  { envOK with getPipelinerun := .ok none }

/-- An initial durable state: a freshly created PipelineRun on a freed
cluster. -/
def dbInit : DeployDB :=
  { prStatus := .created, prConfigCommit := none, clusterStatus := .freed }

/-! ## Helper lemmas -/

theorem incrementsAux_length (p : Int) (l : List Int) :
    (incrementsAux p l).length = l.length := by
  induction l generalizing p with
  | nil => rfl
  | cons x xs ih => simp [incrementsAux, ih]

theorem increments_length (l : List Int) : (increments l).length = l.length := by
  cases l with
  | nil => rfl
  | cons x xs => simp [increments, incrementsAux_length]

theorem incrementsAux_sum (p : Int) (l : List Int) :
    p + (incrementsAux p l).sum = (p :: l).getLast (by simp) := by
  induction l generalizing p with
  | nil => simp [incrementsAux]
  | cons x xs ih =>
    have h := ih x
    simp only [incrementsAux, List.sum_cons, List.getLast_cons_cons] at h ⊢
    omega

theorem increments_sum (l : List Int) (h : l ≠ []) :
    (increments l).sum = l.getLast h := by
  cases l with
  | nil => exact absurd rfl h
  | cons x xs =>
    simp only [increments, List.sum_cons]
    exact incrementsAux_sum x xs

theorem incrementsAux_eq_map_range (p : Int) (l : List Int) :
    incrementsAux p l =
      (List.range l.length).map fun i => l.getD i 0 - (p :: l).getD i 0 := by
  induction l generalizing p with
  | nil => rfl
  | cons y ys ih =>
    simp only [incrementsAux, List.length_cons, List.range_succ_eq_map,
      List.map_cons, List.map_map]
    refine congrArg₂ _ (by simp) ?_
    rw [ih y]
    exact List.map_congr_left fun i _ => by simp [Function.comp]

theorem increments_eq_claimIncrements (l : List Int) :
    increments l = claimIncrements l := by
  cases l with
  | nil => rfl
  | cons x xs =>
    simp only [increments, claimIncrements, List.length_cons,
      List.range_succ_eq_map, List.map_cons, List.map_map]
    refine congrArg₂ _ (by simp) ?_
    rw [incrementsAux_eq_map_range x xs]
    refine List.map_congr_left fun i _ => ?_
    simp [Function.comp]

theorem length_filterMap_eq_countP {α β : Type} (f : α → Option β) (l : List α) :
    (l.filterMap f).length = l.countP fun a => (f a).isSome := by
  induction l with
  | nil => rfl
  | cons a t ih =>
    cases h : f a <;> simp [List.filterMap_cons, List.countP_cons, h, ih]

theorem stepTarget_isSome (rt : Int) (st : CanaryStep) :
    (stepTarget rt st).isSome = effectiveStep st := by
  cases hw : st.setWeight <;> cases hr : st.setReplica <;>
    simp [stepTarget, effectiveStep, hw, hr]

/-- Inversion of a successful `GetSteps` run on an object with a nonempty
declared canary step list: the status index must be set and the returned
`Step` is fully determined. -/
theorem getStepsFetched_ok_elim {σ : Type} (stepHash : List CanaryStep → String)
    (inst : Rollout σ) (st0 : CanaryStep) (rest : List CanaryStep) (s : Step)
    (hc : inst.spec.canary = some (st0 :: rest))
    (hok : getStepsFetched stepHash inst = .ok s) :
    ∃ idx, inst.status.currentStepIndex = some idx ∧
      s = { Index :=
              if inst.status.currentStepHash = stepHash (st0 :: rest) then
                (stepIndexCount (st0 :: rest)
                  (Int.toNat (min idx ((st0 :: rest).length : Int))) : Int)
              else 0,
            Total := ((increments ((st0 :: rest).filterMap
                (stepTarget ((inst.spec.replicas).getD 1)))).length : Int),
            Replicas := increments ((st0 :: rest).filterMap
                (stepTarget ((inst.spec.replicas).getD 1))),
            ManualPaused := inst.spec.paused,
            AutoPromote := match inst.unAutoPromote with
              | some (some b) => b
              | _ => false,
            Extra := some (serializeIndex idx) } := by
  rcases hidx : inst.status.currentStepIndex with _ | idx
  · exfalso
    rcases hap : inst.unAutoPromote with _ | _ | b <;>
      · rcases hrep : inst.spec.replicas with _ | r <;>
          simp [getStepsFetched, hc, hidx, hap, hrep] at hok
  · refine ⟨idx, rfl, ?_⟩
    rcases hap : inst.unAutoPromote with _ | _ | b <;>
      rcases hrep : inst.spec.replicas with _ | r <;>
        simp [getStepsFetched, hc, hidx, hap, hrep] at hok <;>
          simp [← hok, hrep]

/-! ## Claim C2 -/

/-- C2 (counterexample): the claim is false in two ways.  (i) It computes
one cumulative target per declared step, making `Total` equal to the number
of declared steps; but for a rollout whose single declared step is a pure
pause step (no weight, no replica count) the code appends no target at all
and returns `Total = 0` with `Replicas = []`, not `Total = 1`.  (ii) It says
a weight step contributes the exact ceiling `⌈weight/100 · replicasTotal⌉`;
but at weight 7 and 100 replicas the program's binary64 arithmetic
(`0.07 · 100 = 7.000000000000001`) makes it contribute 8, while the exact
ceiling — `⌈7·100/100⌉ = (7·100+99) ediv 100` — is 7. -/
theorem getSteps_per_declared_step_counterexample :
    (getStepsFetched hashH instPause =
      .ok { Index := 0, Total := 0, Replicas := [], ManualPaused := false,
            AutoPromote := false, Extra := some (serializeIndex 0) } ∧
     (instPause.spec.canary.getD []).length = 1) ∧
    (getStepsFetched hashH instW7 =
      .ok { Index := 1, Total := 1, Replicas := [8], ManualPaused := false,
            AutoPromote := false, Extra := some (serializeIndex 1) } ∧
     Int.ediv (7 * 100 + 99) 100 = 7) := by
  exact ⟨⟨by decide, by decide⟩, ⟨by decide, by decide⟩⟩

/-- C2 (amended): for a rollout with declared canary steps on which
`GetSteps` returns, the cumulative target list has one entry per declared
step *carrying a weight or replica-count effect* (a weight step contributes
`int(math.Ceil(float64(weight)/100*float64(replicasTotal)))` evaluated in
IEEE-754 binary64 arithmetic — which can exceed the exact ceiling, e.g. 8
rather than 7 at weight 7 and 100 replicas — with `replicasTotal`
defaulting to 1, a replica step its literal count, a pause-only step
nothing); the returned `Replicas` is its increment sequence
(`increment[0] = cumulative[0]`,
`increment[i] = cumulative[i] - cumulative[i-1]`), `Total` is the
cumulative list's length, and `sum(Replicas) = cumulative[last]` whenever
the cumulative list is nonempty. -/
theorem getSteps_cumulative_increments {σ : Type}
    (stepHash : List CanaryStep → String) (inst : Rollout σ)
    (st0 : CanaryStep) (rest : List CanaryStep) (s : Step)
    (hc : inst.spec.canary = some (st0 :: rest))
    (hok : getStepsFetched stepHash inst = .ok s) :
    s.Replicas =
      claimIncrements ((st0 :: rest).filterMap (stepTarget ((inst.spec.replicas).getD 1))) ∧
    s.Total =
      (((st0 :: rest).filterMap (stepTarget ((inst.spec.replicas).getD 1))).length : Int) ∧
    ∀ hne : (st0 :: rest).filterMap (stepTarget ((inst.spec.replicas).getD 1)) ≠ [],
      s.Replicas.sum =
        ((st0 :: rest).filterMap (stepTarget ((inst.spec.replicas).getD 1))).getLast hne := by
  obtain ⟨idx, -, hs⟩ := getStepsFetched_ok_elim stepHash inst st0 rest s hc hok
  subst hs
  refine ⟨increments_eq_claimIncrements _, ?_, fun hne => increments_sum _ hne⟩
  simp [increments_length]

/-- C2 (witness): for weights `[25,50,100]` and `replicasTotal = 4` the
cumulative targets are `[1,2,4]` and the returned step has
`Replicas = [1,1,2]` and `Total = 3`. -/
theorem getSteps_cumulative_increments_witness :
    (instEx.spec.canary = some [⟨some 25, none⟩, ⟨some 50, none⟩, ⟨some 100, none⟩]) ∧
    ([⟨some 25, none⟩, ⟨some 50, none⟩, ⟨some 100, none⟩] : List CanaryStep).filterMap
      (stepTarget ((instEx.spec.replicas).getD 1)) = [1, 2, 4] ∧
    ∃ s, getStepsFetched hashH instEx = .ok s ∧
      s.Replicas = claimIncrements [1, 2, 4] ∧ s.Replicas = [1, 1, 2] ∧ s.Total = 3 := by
  refine ⟨rfl, by decide, ?_⟩
  have hfm : ([⟨some 25, none⟩, ⟨some 50, none⟩, ⟨some 100, none⟩] : List CanaryStep).filterMap
      (stepTarget ((instEx.spec.replicas).getD 1)) = [1, 2, 4] := by decide
  have h := getSteps_cumulative_increments hashH instEx ⟨some 25, none⟩
    [⟨some 50, none⟩, ⟨some 100, none⟩]
    { Index := 3, Total := 3, Replicas := [1, 1, 2], ManualPaused := false,
      AutoPromote := false, Extra := some (serializeIndex 3) } rfl (by decide)
  rw [hfm] at h
  exact ⟨{ Index := 3, Total := 3, Replicas := [1, 1, 2], ManualPaused := false,
           AutoPromote := false, Extra := some (serializeIndex 3) },
    by decide, h.1, by decide, by decide⟩

/-! ## Claim C3 -/

/-- C3: every `Step` a successful `GetSteps` run returns — the synthetic
single step as well as a computed one — satisfies
`len(Replicas) = Total` and `0 ≤ Index ≤ Total`. -/
theorem getSteps_step_invariants {σ : Type}
    (stepHash : List CanaryStep → String) (inst : Rollout σ) (s : Step)
    (hok : getStepsFetched stepHash inst = .ok s) :
    (s.Replicas.length : Int) = s.Total ∧ 0 ≤ s.Index ∧ s.Index ≤ s.Total := by
  rcases hc : inst.spec.canary with _ | steps
  · rcases hrep : inst.spec.replicas with _ | r <;>
      · simp [getStepsFetched, hc, hrep] at hok
        simp [← hok]
  · rcases steps with _ | ⟨st0, rest⟩
    · rcases hrep : inst.spec.replicas with _ | r <;>
        · simp [getStepsFetched, hc, hrep] at hok
          simp [← hok]
    · obtain ⟨idx, -, hs⟩ := getStepsFetched_ok_elim stepHash inst st0 rest s hc hok
      subst hs
      refine ⟨by simp, ?_, ?_⟩
      · split <;> simp
      · have hcount : ((st0 :: rest).filterMap
            (stepTarget ((inst.spec.replicas).getD 1))).length =
            (st0 :: rest).countP fun st => effectiveStep st := by
          rw [length_filterMap_eq_countP]
          simp [stepTarget_isSome]
        split
        · simp only [increments_length, hcount, stepIndexCount]
          exact_mod_cast (List.take_sublist _ _).countP_le _
        · simp

/-- C3 (witness): the invariant holds at the computed three-step example. -/
theorem getSteps_step_invariants_witness :
    getStepsFetched hashH instEx =
      .ok { Index := 3, Total := 3, Replicas := [1, 1, 2], ManualPaused := false,
            AutoPromote := false, Extra := some (serializeIndex 3) } ∧
    (([1, 1, 2] : List Int).length : Int) = 3 ∧ (0 : Int) ≤ 3 ∧ (3 : Int) ≤ 3 := by
  have h := getSteps_step_invariants hashH instEx
    { Index := 3, Total := 3, Replicas := [1, 1, 2], ManualPaused := false,
      AutoPromote := false, Extra := some (serializeIndex 3) } (by decide)
  exact ⟨by decide, h.1, h.2.1, h.2.2⟩

/-! ## Claim C4 -/

/-- C4: when `GetSteps` returns on an object with declared canary steps, a
stored step-list hash different from the hash of the current declared steps
forces `Index = 0` regardless of the reported current-step index; when the
hashes match, the reported index is clamped to `[0, len(declaredSteps)]` and
only steps carrying a weight or replica-count effect below the clamp advance
the returned `Index`. -/
theorem getSteps_hash_mismatch_index_zero {σ : Type}
    (stepHash : List CanaryStep → String) (inst : Rollout σ)
    (st0 : CanaryStep) (rest : List CanaryStep) (s : Step)
    (hc : inst.spec.canary = some (st0 :: rest))
    (hok : getStepsFetched stepHash inst = .ok s) :
    (inst.status.currentStepHash ≠ stepHash (st0 :: rest) → s.Index = 0) ∧
    (∀ idx, inst.status.currentStepHash = stepHash (st0 :: rest) →
      inst.status.currentStepIndex = some idx →
      s.Index = (((st0 :: rest).take (Int.toNat (min idx ((st0 :: rest).length : Int)))).countP
        (fun st => st.setWeight.isSome || st.setReplica.isSome) : Int)) := by
  obtain ⟨idx, hidx, hs⟩ := getStepsFetched_ok_elim stepHash inst st0 rest s hc hok
  subst hs
  constructor
  · intro hne
    simp [if_neg hne]
  · intro idx2 heq hidx2
    rw [hidx] at hidx2
    cases hidx2
    simp [if_pos heq, stepIndexCount, effectiveStep]

/-- C4 (witness): with the stored hash `"h"` and a hash parameter returning
`"x"`, the reported index 3 is ignored and `Index = 0`; with the matching
hash parameter the clamped count yields `Index = 3`. -/
theorem getSteps_hash_mismatch_index_zero_witness :
    (instEx.status.currentStepHash = "h" ∧ hashX
      [⟨some 25, none⟩, ⟨some 50, none⟩, ⟨some 100, none⟩] = "x") ∧
    (∃ s, getStepsFetched hashX instEx = .ok s ∧ s.Index = 0) ∧
    (∃ s, getStepsFetched hashH instEx = .ok s ∧ s.Index = 3) := by
  refine ⟨⟨rfl, rfl⟩, ?_, ?_⟩
  · have h := getSteps_hash_mismatch_index_zero hashX instEx ⟨some 25, none⟩
      [⟨some 50, none⟩, ⟨some 100, none⟩]
      { Index := 0, Total := 3, Replicas := [1, 1, 2], ManualPaused := false,
        AutoPromote := false, Extra := some (serializeIndex 3) } rfl (by decide)
    exact ⟨{ Index := 0, Total := 3, Replicas := [1, 1, 2], ManualPaused := false,
             AutoPromote := false, Extra := some (serializeIndex 3) },
      by decide, h.1 (by decide)⟩
  · have h := getSteps_hash_mismatch_index_zero hashH instEx ⟨some 25, none⟩
      [⟨some  50, none⟩, ⟨some 100, none⟩]
      { Index := 3, Total := 3, Replicas := [1, 1, 2], ManualPaused := false,
        AutoPromote := false, Extra := some (serializeIndex 3) } rfl (by decide)
    refine ⟨{ Index := 3, Total := 3, Replicas := [1, 1, 2], ManualPaused := false,
              AutoPromote := false, Extra := some (serializeIndex 3) },
      by decide, ?_⟩
    rw [h.2 3 rfl rfl]
    decide

/-! ## Claim C7 -/

/-- C7: the claim says `GetSteps` never fails or panics because of the
`Extra` field, for every fetched rollout with declared canary steps,
including one whose status current-step index is unset.  The code, however,
dereferences `*instance.Status.CurrentStepIndex` unconditionally when
building `Extra` (part_002 line 264), so on a rollout with a declared weight
step and a nil current-step index it panics with a nil-pointer dereference. -/
theorem getSteps_nil_index_panics :
    getStepsFetched hashH instNilIndex = StepsOutcome.panicked ∧
    instNilIndex.status.currentStepIndex = none ∧
    instNilIndex.spec.canary = some [⟨some 50, none⟩] := by
  exact ⟨by decide, rfl, rfl⟩

/-! ## Claim C8 -/

/-- C8 (counterexample): the claim says `ManualPaused` always equals the
object's declared paused flag, including for the synthetic single step; but
on a rollout with `spec.paused = true` and no declared canary steps the code
returns the synthetic step with `ManualPaused = false`. -/
theorem getSteps_synthetic_manualPaused_counterexample :
    getStepsFetched hashH instPausedNoSteps =
      .ok { Index := 0, Total := 1, Replicas := [2], ManualPaused := false,
            AutoPromote := false, Extra := none } ∧
    instPausedNoSteps.spec.paused = true := by
  exact ⟨by decide, rfl⟩

/-- C8 (amended): when canary steps are declared (nonempty), a successful
`GetSteps` surfaces `ManualPaused` directly from the object's declared
paused flag; when no canary steps are declared the synthetic step
`{Index := 0, Total := 1, Replicas := [replicasTotal]}` is returned with
`ManualPaused = false` regardless of the declared flag. -/
theorem getSteps_manualPaused {σ : Type}
    (stepHash : List CanaryStep → String) (inst : Rollout σ) (s : Step)
    (hok : getStepsFetched stepHash inst = .ok s) :
    ((inst.spec.canary = none ∨ inst.spec.canary = some []) →
      s = { Index := 0, Total := 1, Replicas := [(inst.spec.replicas).getD 1],
            ManualPaused := false, AutoPromote := false, Extra := none }) ∧
    (∀ st0 rest, inst.spec.canary = some (st0 :: rest) →
      s.ManualPaused = inst.spec.paused) := by
  constructor
  · rintro (hc | hc) <;>
      rcases hrep : inst.spec.replicas with _ | r <;>
        · simp [getStepsFetched, hc, hrep] at hok
          simp [← hok, hrep]
  · intro st0 rest hc
    obtain ⟨idx, -, hs⟩ := getStepsFetched_ok_elim stepHash inst st0 rest s hc hok
    subst hs
    rfl

/-- C8 (witness): on the three-step example the returned `ManualPaused`
equals the declared paused flag. -/
theorem getSteps_manualPaused_witness :
    instEx.spec.paused = false ∧
    ∃ s, getStepsFetched hashH instEx = .ok s ∧ s.ManualPaused = false := by
  have h := getSteps_manualPaused hashH instEx
    { Index := 3, Total := 3, Replicas := [1, 1, 2], ManualPaused := false,
      AutoPromote := false, Extra := some (serializeIndex 3) } (by decide)
  refine ⟨rfl, { Index := 3, Total := 3, Replicas := [1, 1, 2], ManualPaused := false,
                 AutoPromote := false, Extra := some (serializeIndex 3) },
    by decide, ?_⟩
  exact h.2 ⟨some 25, none⟩ [⟨some 50, none⟩, ⟨some 100, none⟩] rfl

/-! ## Claim C5 -/

/-- The per-pod matching predicate of `IsHealthy`'s loop, written out as a
proposition: Running phase, equal canonical pod-spec hash, and every template
annotation key mapping under Go map lookup (empty-string default) to the same
value on the pod. -/
theorem podMatches_eq_decide {σ : Type} (hashFn : σ → Nat) (tmplHash : Nat)
    (tmplAnn : List (String × String)) (p : Pod σ) :
    podMatches hashFn tmplHash tmplAnn p =
      decide (p.phase = "Running" ∧ hashFn p.spec = tmplHash ∧
        ∀ kv ∈ tmplAnn, lookupGo p.podAnnotations kv.1 = kv.2) := by
  rw [Bool.eq_iff_iff]
  simp [podMatches, List.all_eq_true, and_assoc]

/-- The `oe` component of `IsHealthy`'s fetched-instance computation is
always `nil`: the post-fetch logic never produces an error. -/
theorem isHealthyFetched_err_none {σ : Type} (hashFn : σ → Nat)
    (inst : Rollout σ) (pods : List (Pod σ)) (b : Bool) (oe : Option GoErr)
    (h : isHealthyFetched hashFn inst pods = .result b oe) : oe = none := by
  simp only [isHealthyFetched] at h
  split at h
  · injection h with h1 h2; exact h2.symm
  · split at h
    · split at h
      · injection h with h1 h2; exact h2.symm
      · cases h
    · injection h with h1 h2; exact h2.symm

/-- C5 (counterexample): the claim says the desired replica count defaults
to 1 when the declared replicas are unset, so with zero matching pods
`IsHealthy` should return false; the code defaults the required count to 0,
so on a rollout with unset replicas and no pods it returns healthy. -/
theorem isHealthy_default_replicas_counterexample :
    isHealthyFetched unitHash instNoReplicas [] = .result true none ∧
    claimIsHealthyFetched unitHash instNoReplicas [] = false ∧
    instNoReplicas.spec.replicas = none := by
  exact ⟨by decide, by decide, rfl⟩

/-- C5 (amended): on a fetched rollout, with the matching-pod count taken
over pods that are Running, hash-equal, and whose annotations agree with
every template annotation key under Go map lookup (an empty-valued template
key matches a missing pod key), and with the desired count defaulting to 0
when the declared replicas are unset: `IsHealthy` returns false exactly on a
count mismatch; on a count match it returns true when no current step index
is exposed, and compares the exposed index with the number of declared
canary steps otherwise. -/
theorem isHealthy_matching_amended {σ : Type} (hashFn : σ → Nat)
    (inst : Rollout σ) (pods : List (Pod σ)) :
    (((pods.filter fun p => decide (p.phase = "Running" ∧
          hashFn p.spec = hashFn inst.spec.template.spec ∧
          ∀ kv ∈ inst.spec.template.tmplAnnotations,
            lookupGo p.podAnnotations kv.1 = kv.2)).length : Int) ≠
        (inst.spec.replicas).getD 0 →
      isHealthyFetched hashFn inst pods = .result false none) ∧
    (((pods.filter fun p => decide (p.phase = "Running" ∧
          hashFn p.spec = hashFn inst.spec.template.spec ∧
          ∀ kv ∈ inst.spec.template.tmplAnnotations,
            lookupGo p.podAnnotations kv.1 = kv.2)).length : Int) =
        (inst.spec.replicas).getD 0 →
      (inst.status.currentStepIndex = none →
        isHealthyFetched hashFn inst pods = .result true none) ∧
      (∀ i steps, inst.status.currentStepIndex = some i →
        inst.spec.canary = some steps →
        isHealthyFetched hashFn inst pods =
          .result (decide (i = (steps.length : Int))) none)) := by
  have hM : (pods.countP fun p => podMatches hashFn (hashFn inst.spec.template.spec)
        inst.spec.template.tmplAnnotations p) =
      (pods.filter fun p => decide (p.phase = "Running" ∧
        hashFn p.spec = hashFn inst.spec.template.spec ∧
        ∀ kv ∈ inst.spec.template.tmplAnnotations,
          lookupGo p.podAnnotations kv.1 = kv.2)).length := by
    rw [List.countP_eq_length_filter]
    exact congrArg List.length
      (List.filter_congr fun p _ => podMatches_eq_decide hashFn _ _ p)
  have hreq : (match inst.spec.replicas with
      | some r => r
      | none => (0 : Int)) = (inst.spec.replicas).getD 0 := by
    rcases inst.spec.replicas with _ | r <;> rfl
  constructor
  · intro hne
    simp only [isHealthyFetched, hM, hreq]
    rw [if_pos hne]
  · intro heq
    constructor
    · intro hidx
      simp only [isHealthyFetched, hM, hreq, hidx]
      rw [if_neg (by simpa using heq)]
    · intro i steps hidx hcan
      simp only [isHealthyFetched, hM, hreq, hidx, hcan]
      rw [if_neg (by simpa using heq)]
      congr 1

/-- C5 (witness): with unset replicas and no pods the count 0 equals the
code's default desired count 0 and no step index is exposed, so the code
reports healthy. -/
theorem isHealthy_matching_amended_witness :
    isHealthyFetched unitHash instNoReplicas [] = .result true none ∧
    (([] : List (Pod Unit)).length : Int) = (instNoReplicas.spec.replicas).getD 0 := by
  have h := isHealthy_matching_amended unitHash instNoReplicas []
  exact ⟨(h.2 (by decide)).1 rfl, by decide⟩

/-! ## Claim C6 -/

/-- C6: `IsHealthy` returns healthy with no error when the fetched instance
is nil (the object's absence case); any fetch or pod-list error is surfaced
with the boolean set to true; and `IsHealthy` never returns false together
with a non-nil error. -/
theorem isHealthy_error_handling {σ : Type} (hashFn : σ → Nat)
    (fetch : FetchOutcome σ) (podsRes : Except GoErr (List (Pod σ)))
    (b : Bool) (oe : Option GoErr)
    (h : isHealthy hashFn fetch podsRes = .result b oe) :
    (fetch = .nilInstance → b = true ∧ oe = none) ∧
    (∀ e, fetch = .failed e → b = true ∧ oe = some e) ∧
    (oe.isSome → b = true) := by
  rcases fetch with e | _ | inst
  · simp only [isHealthy] at h
    injection h with h1 h2
    refine ⟨(by intro hx; cases hx), ?_, fun _ => h1.symm⟩
    intro e2 he2
    cases he2
    exact ⟨h1.symm, h2.symm⟩
  · simp only [isHealthy] at h
    injection h with h1 h2
    exact ⟨fun _ => ⟨h1.symm, h2.symm⟩, (by intro e2 hx; cases hx), fun _ => h1.symm⟩
  · refine ⟨(by intro hx; cases hx), (by intro e2 hx; cases hx), ?_⟩
    simp only [isHealthy] at h
    rcases podsRes with e | pods
    · injection h with h1 h2
      exact fun _ => h1.symm
    · intro hsome
      rw [isHealthyFetched_err_none hashFn inst pods b oe h] at hsome
      cases hsome

/-- C6 (witness): a concrete read failure surfaces as healthy-with-error,
and the nil-instance case is healthy with no error. -/
theorem isHealthy_error_handling_witness :
    isHealthy unitHash (FetchOutcome.failed (.getFailed "boom"))
        (.ok ([] : List (Pod Unit))) = .result true (some (.getFailed "boom")) ∧
    isHealthy unitHash (FetchOutcome.nilInstance (σ := Unit))
        (.ok ([] : List (Pod Unit))) = .result true none ∧
    (true = true ∧ some (GoErr.getFailed "boom") = some (GoErr.getFailed "boom")) := by
  have h := isHealthy_error_handling unitHash
    (FetchOutcome.failed (.getFailed "boom")) (.ok ([] : List (Pod Unit)))
    true (some (.getFailed "boom")) (by decide)
  exact ⟨by decide, by decide, h.2.1 (.getFailed "boom") rfl⟩

/-! ## Claim C9 -/

theorem jLookup_cons (k' : String) (a : String × JVal) (t : List (String × JVal)) :
    (a :: t).lookup k' = if k' = a.1 then some a.2 else t.lookup k' := by
  rcases a with ⟨ak, av⟩
  by_cases h : k' = ak
  · simp [List.lookup, h]
  · rw [List.lookup, if_neg h, show (k' == ak) = false from beq_eq_false_iff_ne.mpr h]

theorem lookup_map_replace (m : List (String × JVal)) (k : String) (v : JVal) :
    ((m.map fun p => if p.1 == k then (k, v) else p).lookup k) =
      if m.any (fun p => p.1 == k) then some v else none := by
  induction m with
  | nil => rfl
  | cons a t ih =>
    by_cases hk : a.1 = k
    · simp [List.map_cons, hk, jLookup_cons]
    · have hbe : (a.1 == k) = false := beq_eq_false_iff_ne.mpr hk
      rw [List.map_cons, hbe, if_neg (by simp : ¬(false = true)), jLookup_cons,
        if_neg (Ne.symm hk), ih, List.any_cons, hbe, Bool.false_or]

theorem lookup_map_replace_ne (m : List (String × JVal)) (k : String) (v : JVal)
    (k' : String) (h : k' ≠ k) :
    ((m.map fun p => if p.1 == k then (k, v) else p).lookup k') = m.lookup k' := by
  induction m with
  | nil => rfl
  | cons a t ih =>
    by_cases hk : a.1 = k
    · have hbe : (a.1 == k) = true := beq_iff_eq.mpr hk
      rw [List.map_cons, hbe, if_pos rfl, jLookup_cons, jLookup_cons, ih,
        if_neg h, if_neg (by rw [hk]; exact h)]
    · have hbe : (a.1 == k) = false := beq_eq_false_iff_ne.mpr hk
      rw [List.map_cons, hbe, if_neg (by simp : ¬(false = true)), jLookup_cons,
        jLookup_cons, ih]

theorem lookup_append_single_self (m : List (String × JVal)) (k : String) (v : JVal)
    (h : m.any (fun p => p.1 == k) = false) : ((m ++ [(k, v)]).lookup k) = some v := by
  induction m with
  | nil => simp [jLookup_cons]
  | cons a t ih =>
    simp only [List.any_cons, Bool.or_eq_false_iff] at h
    have ha : a.1 ≠ k := by simpa using h.1
    rw [List.cons_append, jLookup_cons, if_neg (Ne.symm ha)]
    exact ih h.2

theorem lookup_append_single_ne (m : List (String × JVal)) (k : String) (v : JVal)
    (k' : String) (h : k' ≠ k) : ((m ++ [(k, v)]).lookup k') = m.lookup k' := by
  induction m with
  | nil => simp [jLookup_cons, h]
  | cons a t ih =>
    rw [List.cons_append, jLookup_cons, jLookup_cons, ih]

theorem lookup_setKey_self (m : List (String × JVal)) (k : String) (v : JVal) :
    (setKey m k v).lookup k = some v := by
  unfold setKey
  split
  · rename_i hany
    rw [lookup_map_replace, if_pos hany]
  · rename_i hany
    exact lookup_append_single_self m k v (Bool.eq_false_iff.mpr hany)

theorem lookup_setKey_ne (m : List (String × JVal)) (k : String) (v : JVal)
    (k' : String) (h : k' ≠ k) : (setKey m k v).lookup k' = m.lookup k' := by
  unfold setKey
  split
  · exact lookup_map_replace_ne m k v k' h
  · exact lookup_append_single_ne m k v k' h

theorem delKey_cons (a : String × JVal) (t : List (String × JVal)) (k : String) :
    delKey (a :: t) k = if a.1 = k then delKey t k else a :: delKey t k := by
  by_cases hk : a.1 = k <;> simp [delKey, hk]

theorem lookup_delKey_self (m : List (String × JVal)) (k : String) :
    (delKey m k).lookup k = none := by
  induction m with
  | nil => rfl
  | cons a t ih =>
    rw [delKey_cons]
    by_cases hk : a.1 = k
    · rw [if_pos hk]; exact ih
    · rw [if_neg hk, jLookup_cons, if_neg (Ne.symm hk)]; exact ih

theorem lookup_delKey_ne (m : List (String × JVal)) (k : String)
    (k' : String) (h : k' ≠ k) : (delKey m k).lookup k' = m.lookup k' := by
  induction m with
  | nil => rfl
  | cons a t ih =>
    rw [delKey_cons]
    by_cases hk : a.1 = k
    · rw [if_pos hk, jLookup_cons, if_neg (by rw [hk]; exact h)]
      exact ih
    · rw [if_neg hk, jLookup_cons, jLookup_cons, ih]

/-- C9: on a convertible object with locatable `spec` and `status` submaps,
`Action("pause")` sets `spec.paused = true` and leaves every other field
unchanged; `Action("resume")` deletes `status.pauseConditions`, sets
`spec.paused = false`, and leaves everything else unchanged; and `Action`
with a name outside the six-command vocabulary fails with InvalidArgument
and leaves the object unmodified. -/
theorem action_pause_resume_unknown
    (convert : List (String × JVal) → Option (Option (List CanaryStep)))
    (un spec status : List (String × JVal)) (canary : Option (List CanaryStep))
    (hc : convert un = some canary)
    (hs : un.lookup "spec" = some (JVal.obj spec))
    (ht : un.lookup "status" = some (JVal.obj status)) :
    (∃ un1, Action convert "pause" un = .result un1 (some un1) none ∧
      un1.lookup "status" = un.lookup "status" ∧
      (∀ k, k ≠ "spec" → un1.lookup k = un.lookup k) ∧
      ∃ spec1, un1.lookup "spec" = some (JVal.obj spec1) ∧
        spec1.lookup "paused" = some (JVal.bool true) ∧
        ∀ k, k ≠ "paused" → spec1.lookup k = spec.lookup k) ∧
    (∃ un1, Action convert "resume" un = .result un1 (some un1) none ∧
      (∀ k, k ≠ "spec" → k ≠ "status" → un1.lookup k = un.lookup k) ∧
      (∃ spec1, un1.lookup "spec" = some (JVal.obj spec1) ∧
        spec1.lookup "paused" = some (JVal.bool false) ∧
        ∀ k, k ≠ "paused" → spec1.lookup k = spec.lookup k) ∧
      ∃ status1, un1.lookup "status" = some (JVal.obj status1) ∧
        status1.lookup "pauseConditions" = none ∧
        ∀ k, k ≠ "pauseConditions" → status1.lookup k = status.lookup k) ∧
    (∀ name, name ∉ (["resume", "pause", "promote-full", "promote",
        "auto-promote", "cancel-auto-promote"] : List String) →
      Action convert name un =
        .result un none (some (.paramInvalid ("unsupported action: " ++ name)))) := by
  refine ⟨?_, ?_, ?_⟩
  · refine ⟨setKey un "spec" (.obj (setKey spec "paused" (.bool true))), ?_, ?_, ?_, ?_⟩
    · simp [Action, hc, hs, ht]
    · exact lookup_setKey_ne un "spec" _ "status" (by decide)
    · exact fun k hk => lookup_setKey_ne un "spec" _ k hk
    · exact ⟨setKey spec "paused" (.bool true), lookup_setKey_self un "spec" _,
        lookup_setKey_self spec "paused" _,
        fun k hk => lookup_setKey_ne spec "paused" _ k hk⟩
  · refine ⟨setKey (setKey un "status" (.obj (delKey status "pauseConditions")))
      "spec" (.obj (setKey spec "paused" (.bool false))), ?_, ?_, ?_, ?_⟩
    · simp [Action, hc, hs, ht]
    · intro k hk1 hk2
      rw [lookup_setKey_ne _ "spec" _ k hk1, lookup_setKey_ne _ "status" _ k hk2]
    · exact ⟨setKey spec "paused" (.bool false), lookup_setKey_self _ "spec" _,
        lookup_setKey_self spec "paused" _,
        fun k hk => lookup_setKey_ne spec "paused" _ k hk⟩
    · refine ⟨delKey status "pauseConditions", ?_,
        lookup_delKey_self status "pauseConditions",
        fun k hk => lookup_delKey_ne status "pauseConditions" k hk⟩
      rw [lookup_setKey_ne _ "spec" _ "status" (by decide),
        lookup_setKey_self un "status" _]
  · intro name hn
    simp only [List.mem_cons, List.not_mem_nil, or_false, not_or] at hn
    obtain ⟨n1, n2, n3, n4, n5, n6⟩ := hn
    simp only [Action, hc, hs, ht]
    rw [if_neg n1, if_neg n2, if_neg n3, if_neg n4, if_neg n5, if_neg n6]

/-- C9 (witness): on a concrete rollout object an unknown action name
returns InvalidArgument with a nil object and the input left unmodified. -/
theorem action_pause_resume_unknown_witness :
    convertEx unEx = some (some []) ∧
    unEx.lookup "spec" = some (JVal.obj [("paused", .bool false), ("replicas", .num 2)]) ∧
    unEx.lookup "status" =
      some (JVal.obj [("pauseConditions", .arr []), ("phase", .str "Paused")]) ∧
    Action convertEx "bogus" unEx =
      .result unEx none (some (.paramInvalid ("unsupported action: " ++ "bogus"))) := by
  refine ⟨rfl, rfl, rfl, ?_⟩
  exact (action_pause_resume_unknown convertEx unEx
    [("paused", .bool false), ("replicas", .num 2)]
    [("pauseConditions", .arr []), ("phase", .str "Paused")]
    (some []) rfl rfl rfl).2.2 "bogus" (by decide)

/-! ## Claim C10 -/

/-- C10: when the PipelineRun is absent or belongs to a different cluster,
`InternalDeployV2` fails with NotFound after the single database read: no
Git or CD call is attempted, no status or config-commit write happens, and
the durable state is untouched. -/
theorem internalDeployV2_notfound_before_calls (env : DeployEnv)
    (cid pid : Nat) (db : DeployDB)
    (h : env.getPipelinerun = .ok none ∨
      ∃ pr, env.getPipelinerun = .ok (some pr) ∧ pr.clusterID ≠ cid) :
    deployResult env cid pid db =
      .error (.notFound "pipelinerun"
        ("cannot find the pipelinerun with id: " ++ toString pid)) ∧
    deployTrace env cid pid db = [.dbGetPipelinerun] ∧
    deployDBAfter env cid pid db = db := by
  rcases h with h | ⟨pr, h, hne⟩
  · simp [deployResult, deployTrace, deployDBAfter, internalDeployV2, h]
  · simp [deployResult, deployTrace, deployDBAfter, internalDeployV2, h, hne]

/-- C10 (witness): with no PipelineRun stored, the invocation returns
NotFound and the trace holds only the PipelineRun read. -/
theorem internalDeployV2_notfound_before_calls_witness :
    deployResult envNoPr 3 9 dbInit =
      .error (.notFound "pipelinerun"
        ("cannot find the pipelinerun with id: " ++ toString 9)) ∧
    deployTrace envNoPr 3 9 dbInit = [.dbGetPipelinerun] ∧
    deployDBAfter envNoPr 3 9 dbInit = dbInit := by
  exact internalDeployV2_notfound_before_calls envNoPr 3 9 dbInit (Or.inl rfl)

/-! ## Claim C1 -/

/-- C1: for every invocation of the deploy state machine, the attempted
status writes form a prefix of `[Committed, Merged, OK]` in that order (in
particular the machine never writes `Failed` itself); the persisted
PipelineRun status after the call is the last successfully written status,
or the initial one when none was written (the last successfully completed
stage); a successful invocation performs exactly the ordered call sequence —
config commit persisted, then `Committed`, merge, `Merged`, region/env/repo
reads, CD create, the `Freed → Empty` cluster reset (when the cluster was
`Freed`) *before* the CD deploy trigger, then `OK` — each status advancement
persisted immediately at its own stage; and a failing invocation leaves the
status at the initial, `Committed`, or `Merged` stage. -/
theorem internalDeployV2_stage_order (env : DeployEnv) (cid pid : Nat)
    (db : DeployDB) :
    attemptedStatuses (deployTrace env cid pid db) <+:
      [PipelineStatus.committed, PipelineStatus.merged, PipelineStatus.ok] ∧
    (deployDBAfter env cid pid db).prStatus =
      (persistedStatuses (deployTrace env cid pid db)).getLastD db.prStatus ∧
    (∀ resp, deployResult env cid pid db = .ok resp →
      ∃ pr cl commit,
        env.getPipelinerun = .ok (some pr) ∧
        env.getCluster = .ok cl ∧
        env.updatePipelineOutput = .ok commit ∧
        deployTrace env cid pid db =
          [.dbGetPipelinerun, .dbGetCluster, .dbGetApplication,
            .dbGetTemplateRelease, .gitUpdatePipelineOutput,
            .dbUpdateConfigCommit pr.id commit true,
            .dbUpdateStatus pr.id .committed true, .gitMergeBranch,
            .dbUpdateStatus pr.id .merged true, .dbGetRegionEntity,
            .gitGetEnvValue, .gitGetRepoInfo, .cdCreateCluster] ++
          (if cl.status = ClusterStatus.freed
            then [.dbUpdateCluster .empty true] else []) ++
          [.cdDeployCluster, .dbUpdateStatus pr.id .ok true] ∧
        (deployDBAfter env cid pid db).prStatus = .ok ∧
        (deployDBAfter env cid pid db).prConfigCommit = some commit ∧
        (cl.status = ClusterStatus.freed →
          (deployDBAfter env cid pid db).clusterStatus = .empty) ∧
        resp = ⟨pr.id, commit⟩) ∧
    (∀ e, deployResult env cid pid db = .error e →
      (deployDBAfter env cid pid db).prStatus = db.prStatus ∨
      (deployDBAfter env cid pid db).prStatus = .committed ∨
      (deployDBAfter env cid pid db).prStatus = .merged) := by
  obtain ⟨f1, f2, f3, f4, f5, f6, f7, f8, f9, f10, f11, f12, f13, f14, f15, f16⟩ := env
  rcases f1 with e1 | _ | pr
  · simp [deployResult, deployTrace, deployDBAfter, internalDeployV2, attemptedStatuses, persistedStatuses, List.cons_prefix_cons, List.nil_prefix]
  · simp [deployResult, deployTrace, deployDBAfter, internalDeployV2, attemptedStatuses, persistedStatuses, List.cons_prefix_cons, List.nil_prefix]
  · by_cases hcid : pr.clusterID ≠ cid
    · simp [deployResult, deployTrace, deployDBAfter, internalDeployV2, attemptedStatuses, persistedStatuses, List.cons_prefix_cons, List.nil_prefix, hcid]
    · -- pr belongs to the target cluster
      rcases f2 with e2 | cl
      · simp [deployResult, deployTrace, deployDBAfter, internalDeployV2, attemptedStatuses, persistedStatuses, List.cons_prefix_cons, List.nil_prefix, hcid]
      · -- next stage
        rcases f3 with e3 | app
        · simp [deployResult, deployTrace, deployDBAfter, internalDeployV2, attemptedStatuses, persistedStatuses, List.cons_prefix_cons, List.nil_prefix, hcid]
        · -- next stage
          rcases f4 with e4 | trel
          · simp [deployResult, deployTrace, deployDBAfter, internalDeployV2, attemptedStatuses, persistedStatuses, List.cons_prefix_cons, List.nil_prefix, hcid]
          · -- next stage
            rcases f5 with e5 | commit
            · simp [deployResult, deployTrace, deployDBAfter, internalDeployV2, attemptedStatuses, persistedStatuses, List.cons_prefix_cons, List.nil_prefix, hcid]
            · -- next stage
              rcases f6 with _ | e6
              · -- next stage
                rcases f7 with _ | e7
                · -- next stage
                  rcases f8 with e8 | rev
                  · simp [deployResult, deployTrace, deployDBAfter, internalDeployV2, attemptedStatuses, persistedStatuses, List.cons_prefix_cons, List.nil_prefix, hcid]
                  · -- next stage
                    rcases f9 with _ | e9
                    · -- next stage
                      rcases f10 with e10 | re
                      · simp [deployResult, deployTrace, deployDBAfter, internalDeployV2, attemptedStatuses, persistedStatuses, List.cons_prefix_cons, List.nil_prefix, hcid]
                      · -- next stage
                        rcases f11 with e11 | ev
                        · simp [deployResult, deployTrace, deployDBAfter, internalDeployV2, attemptedStatuses, persistedStatuses, List.cons_prefix_cons, List.nil_prefix, hcid]
                        · -- next stage
                          rcases f13 with _ | e13
                          · -- next stage
                            by_cases hfr : cl.status = ClusterStatus.freed
                            · rcases f14 with e14 | u
                              · simp [deployResult, deployTrace, deployDBAfter, internalDeployV2, attemptedStatuses, persistedStatuses, List.cons_prefix_cons, List.nil_prefix, hcid, hfr]
                              · rcases f15 with _ | e15
                                · rcases f16 with _ | e16
                                  · refine ⟨?_, ?_, ?_, ?_⟩
                                    · simp [deployTrace, internalDeployV2, attemptedStatuses, hcid, hfr, List.cons_prefix_cons, List.nil_prefix]
                                    · simp [deployDBAfter, deployTrace, internalDeployV2, persistedStatuses, hcid, hfr]
                                    · intro resp hresp
                                      simp only [deployResult, internalDeployV2] at hresp
                                      rw [if_neg hcid] at hresp
                                      simp only [if_pos hfr] at hresp
                                      injection hresp with hr
                                      refine ⟨pr, cl, commit, rfl, rfl, rfl, ?_, ?_, ?_, fun _ => ?_, hr.symm⟩
                                      · simp [deployTrace, internalDeployV2, hcid, hfr]
                                      · simp [deployDBAfter, internalDeployV2, hcid, hfr]
                                      · simp [deployDBAfter, internalDeployV2, hcid, hfr]
                                      · simp [deployDBAfter, internalDeployV2, hcid, hfr]
                                    · intro e he
                                      simp only [deployResult, internalDeployV2] at he
                                      rw [if_neg hcid] at he
                                      simp only [if_pos hfr] at he
                                      simp at he
                                  · simp [deployResult, deployTrace, deployDBAfter, internalDeployV2, attemptedStatuses, persistedStatuses, List.cons_prefix_cons, List.nil_prefix, hcid, hfr]
                                · simp [deployResult, deployTrace, deployDBAfter, internalDeployV2, attemptedStatuses, persistedStatuses, List.cons_prefix_cons, List.nil_prefix, hcid, hfr]
                            · rcases f15 with _ | e15
                              · rcases f16 with _ | e16
                                · refine ⟨?_, ?_, ?_, ?_⟩
                                  · simp [deployTrace, internalDeployV2, attemptedStatuses, hcid, hfr, List.cons_prefix_cons, List.nil_prefix]
                                  · simp [deployDBAfter, deployTrace, internalDeployV2, persistedStatuses, hcid, hfr]
                                  · intro resp hresp
                                    simp only [deployResult, internalDeployV2] at hresp
                                    rw [if_neg hcid] at hresp
                                    simp only [if_neg hfr] at hresp
                                    injection hresp with hr
                                    refine ⟨pr, cl, commit, rfl, rfl, rfl, ?_, ?_, ?_, fun hx => absurd hx hfr, hr.symm⟩
                                    · simp [deployTrace, internalDeployV2, hcid, hfr]
                                    · simp [deployDBAfter, internalDeployV2, hcid, hfr]
                                    · simp [deployDBAfter, internalDeployV2, hcid, hfr]
                                  · intro e he
                                    simp only [deployResult, internalDeployV2] at he
                                    rw [if_neg hcid] at he
                                    simp only [if_neg hfr] at he
                                    simp at he
                                · simp [deployResult, deployTrace, deployDBAfter, internalDeployV2, attemptedStatuses, persistedStatuses, List.cons_prefix_cons, List.nil_prefix, hcid, hfr]
                              · simp [deployResult, deployTrace, deployDBAfter, internalDeployV2, attemptedStatuses, persistedStatuses, List.cons_prefix_cons, List.nil_prefix, hcid, hfr]
                          · simp [deployResult, deployTrace, deployDBAfter, internalDeployV2, attemptedStatuses, persistedStatuses, List.cons_prefix_cons, List.nil_prefix, hcid]
                    · simp [deployResult, deployTrace, deployDBAfter, internalDeployV2, attemptedStatuses, persistedStatuses, List.cons_prefix_cons, List.nil_prefix, hcid]
                · simp [deployResult, deployTrace, deployDBAfter, internalDeployV2, attemptedStatuses, persistedStatuses, List.cons_prefix_cons, List.nil_prefix, hcid]
              · simp [deployResult, deployTrace, deployDBAfter, internalDeployV2, attemptedStatuses, persistedStatuses, List.cons_prefix_cons, List.nil_prefix, hcid]

/-- C1 (witness): with every collaborator succeeding and the cluster in
`Freed`, the attempted status writes are exactly `[Committed, Merged, OK]`,
the run succeeds, and the cluster ends `Empty`. -/
theorem internalDeployV2_stage_order_witness :
    deployResult envOK 3 7 dbInit = .ok ⟨7, "commit1"⟩ ∧
    attemptedStatuses (deployTrace envOK 3 7 dbInit) =
      [PipelineStatus.committed, PipelineStatus.merged, PipelineStatus.ok] ∧
    (deployDBAfter envOK 3 7 dbInit).prStatus = PipelineStatus.ok ∧
    (deployDBAfter envOK 3 7 dbInit).clusterStatus = ClusterStatus.empty := by
  have h := internalDeployV2_stage_order envOK 3 7 dbInit
  refine ⟨rfl, by decide, ?_, by decide⟩
  rw [h.2.1]
  decide

end Horizon
